import Mathlib

/-
  Verification of the Roset FUSE driver and CSI supervisor.

  Shallow embedding of the Rust sources under src/fuse and src/csi:
  pure Lean functions mirror the source functions; stateful code is
  modelled by explicit state passing; calls to the network and to the
  filesystem are modelled by explicit traces/oracles of their outcomes.
-/

set_option maxHeartbeats 1000000

namespace Roset

/- ### Association-list maps (model of `std::collections::HashMap`) -/

/-- Lookup in an association list, first binding wins. -/
def mapLookup {κ α : Type} [DecidableEq κ] (m : List (κ × α)) (k : κ) : Option α :=
  match m with
  | [] => none
  | (k', v) :: rest => if k' = k then some v else mapLookup rest k

/-- Insert (overwrite) a binding. -/
def mapInsert {κ α : Type} [DecidableEq κ] (m : List (κ × α)) (k : κ) (v : α) :
    List (κ × α) :=
  (k, v) :: m.filter (fun e => !decide (e.1 = k))

/-- Remove a binding. -/
def mapErase {κ α : Type} [DecidableEq κ] (m : List (κ × α)) (k : κ) : List (κ × α) :=
  m.filter (fun e => !decide (e.1 = k))

/- ### Staging engine (src/fuse/src/staging.rs) -/

/-- Mirrors `Part` from src/fuse/src/client/models.rs (u32 part number, ETag). -/
structure Part where
  part_number : Nat
  etag : String
deriving Repr, DecidableEq

/-- Mirrors `UploadJob` from src/fuse/src/staging.rs. -/
structure UploadJob where
  file_path : String
  node_id : String
  upload_token : String
  total_size : Nat
  completed_parts : List Part
deriving Repr, DecidableEq

/-- Mirrors `PART_SIZE = 20 * 1024 * 1024` in src/fuse/src/staging.rs. -/
def PART_SIZE : Nat := 20 * 1024 * 1024

/-- Rust `u64::div_ceil`. -/
def divCeil (a b : Nat) : Nat := (a + b - 1) / b

/-- Part count: `total_size.div_ceil(PART_SIZE)` when positive, else 1
(`iterations` in `process_upload`). -/
def iterations (total_size : Nat) : Nat :=
  if total_size > 0 then divCeil total_size PART_SIZE else 1

/-- The `for part_number in 1..=iterations` loop of `process_upload`: walk the
given part numbers, advance `offset` by each part's size, and collect the
parts whose number is absent from `existing` (the skip test), together with
their offset and size. -/
def partsLoop (total : Nat) (existing : List Nat) :
    List Nat → Nat → List (Nat × Nat × Nat)
  | [], _ => []
  | pn :: rest, offset =>
    let current_part_size := if total > 0 then min PART_SIZE (total - offset) else 0
    let tail := partsLoop total existing rest (offset + current_part_size)
    if pn ∈ existing then tail else (pn, offset, current_part_size) :: tail

/-- The part numbers already present in `completed_parts`
(`existing_parts` in `process_upload`). -/
def existingParts (j : UploadJob) : List Nat :=
  j.completed_parts.map Part.part_number

/-- `pending_parts` as computed by `process_upload`. -/
def pendingParts (j : UploadJob) : List (Nat × Nat × Nat) :=
  partsLoop j.total_size (existingParts j) (List.range' 1 (iterations j.total_size)) 0

/-- The comparator of `completed_parts.sort_by_key(|p| p.part_number)`. -/
def partLe (p q : Part) : Bool := decide (p.part_number ≤ q.part_number)

/-- The `parts` list that `process_upload` passes to
`complete_multipart_upload`, as a function of `uploaded`: the pending parts'
results in the order `buffer_unordered` yields them (each with its ETag).
When no parts are pending and `completed_parts` is nonempty, the early-return
branch sends the persisted list as-is; otherwise results are pushed onto
`completed_parts` in completion order and the list is sorted by part number. -/
def completeArg (j : UploadJob) (uploaded : List Part) : List Part :=
  if pendingParts j = [] ∧ j.completed_parts ≠ [] then j.completed_parts
  else (j.completed_parts ++ uploaded).mergeSort partLe

/-- `process_upload` including the leading staged-file existence check;
returns the list sent to `complete_multipart_upload`. -/
def processUpload (fileExists : Bool) (j : UploadJob) (uploaded : List Part) :
    Except String (List Part) :=
  if !fileExists then .error ("Staged file not found: " ++ j.file_path)
  else .ok (completeArg j uploaded)

/- ### Crash-recovery hydration scan in `StagingManager::new` -/

/-- One directory entry as seen by the hydration scan, with the outcomes of
the filesystem and parse calls made for it. -/
structure ScanEntry where
  path : String
  readOk : Bool
  parsed : Option UploadJob
  dataFileExists : Bool
deriving Repr, DecidableEq

/-- The externally visible action the hydration scan takes for one entry. -/
inductive HydrateAction where
  | requeued (job : UploadJob)
  | removedOrphan (path : String)
  | movedToFailed (path : String)
  | readFailed (path : String)
  | skipped (path : String)
deriving Repr, DecidableEq

/-- Split a character list on dots (the dot structure of a file name). -/
def splitDots : List Char → List (List Char)
  | [] => [[]]
  | c :: rest =>
    let r := splitDots rest
    if c = '.' then [] :: r
    else
      match r with
      | [] => [[c]]
      | h :: t => (c :: h) :: t

/-- Rust `Path::extension() == Some("json")`: the part after the last dot,
defined only when something nonempty precedes that dot. -/
def extensionIsJson (path : String) : Bool :=
  match (splitDots path.toList).reverse with
  | [] => false
  | [_] => false
  | ext :: rest => ext == "json".toList && !(rest == [([] : List Char)])

/-- One iteration of the hydration loop in `StagingManager::new`
(src/fuse/src/staging.rs lines 52-94). -/
def hydrateEntry (e : ScanEntry) : HydrateAction :=
  if extensionIsJson e.path then
    if e.readOk then
      match e.parsed with
      | some job =>
        if e.dataFileExists then .requeued job else .removedOrphan e.path
      | none => .movedToFailed e.path
    else .readFailed e.path
  else .skipped e.path

/-- The whole hydration scan over the staging-root directory listing. -/
def hydrate (entries : List ScanEntry) : List HydrateAction :=
  entries.map hydrateEntry

/- ### API client (src/fuse/src/client/mod.rs, src/fuse/src/client/error.rs) -/

/-- Mirrors `ApiError` from src/fuse/src/client/error.rs. The payloads of
`NetworkError` and `IoError` are opaque here. -/
inductive ApiError where
  | NotFound
  | Unauthorized
  | Forbidden
  | LeaseConflict
  | RateLimited
  | ServerError (msg : String)
  | NetworkError
  | IoError
  | Other (msg : String)
deriving Repr, DecidableEq

/-- Reason phrase of the HTTP statuses used in this development, as rendered
by the `Display` of `reqwest::StatusCode` inside `format!`. -/
def reasonPhrase (code : Nat) : String :=
  match code with
  | 400 => " Bad Request"
  | 401 => " Unauthorized"
  | 403 => " Forbidden"
  | 404 => " Not Found"
  | 409 => " Conflict"
  | 429 => " Too Many Requests"
  | 500 => " Internal Server Error"
  | 502 => " Bad Gateway"
  | 503 => " Service Unavailable"
  | _ => ""

/-- `Display` of an HTTP status, e.g. `403 Forbidden`. -/
def statusDisplay (code : Nat) : String := toString code ++ reasonPhrase code

/-- Mirrors `ApiError::from_status` in src/fuse/src/client/error.rs. -/
def fromStatus (code : Nat) (body : String) : ApiError :=
  match code with
  | 401 => .Unauthorized
  | 403 => .Forbidden
  | 404 => .NotFound
  | 409 => .LeaseConflict
  | 429 => .RateLimited
  | _ => .ServerError (statusDisplay code ++ ": " ++ body)

/-- Outcome of one `send()` of a JSON request: a 2xx response whose body
parses, a non-2xx status with its body text, or a transport error. -/
inductive HttpOutcome where
  | success
  | status (code : Nat) (body : String)
  | netError
deriving Repr, DecidableEq

/-- Result of a retry loop run against a finite trace of attempt outcomes:
either the loop returned (result, total attempts, sleeps performed, in
milliseconds), or the trace was exhausted with the loop still retrying. -/
inductive ExecResult (α : Type) where
  | finished (res : Except ApiError α) (attempts : Nat) (sleeps : List Nat)
  | pending (attempts : Nat) (sleeps : List Nat)
deriving Repr

/-- Record a sleep performed before the attempts of the rest of the run. -/
def addSleep {α : Type} (d : Nat) : ExecResult α → ExecResult α
  | .finished r a s => .finished r a (d :: s)
  | .pending a s => .pending a (d :: s)

/-- Whether a run returned `Ok`. -/
def ExecResult.isOk {α : Type} : ExecResult α → Bool
  | .finished (.ok _) _ _ => true
  | _ => false

/-- Mirrors the loop of `RosetClient::execute_request`
(src/fuse/src/client/mod.rs lines 76-137), driven by a trace of outcomes of
the successive `send()` calls. `attempt` and `delay` are the loop state
(`attempt` counts sends already made; `delay` is `delay_ms`). -/
def executeRequest (max_retries : Nat) : Nat → Nat → List HttpOutcome → ExecResult Unit
  | attempt, _delay, [] => .pending attempt []
  | attempt, delay, o :: rest =>
    let a := attempt + 1
    match o with
    | .success => .finished (.ok ()) a []
    | .status code body =>
      if code = 429 then
        if max_retries ≤ a then .finished (.error .RateLimited) a []
        else addSleep delay (executeRequest max_retries a (min (delay * 2) 10000) rest)
      else if 500 ≤ code ∧ code ≤ 599 then
        if max_retries ≤ a then .finished (.error (fromStatus code body)) a []
        else addSleep delay (executeRequest max_retries a (min (delay * 2) 10000) rest)
      else .finished (.error (fromStatus code body)) a []
    | .netError =>
      if max_retries ≤ a then .finished (.error .NetworkError) a []
      else addSleep delay (executeRequest max_retries a (min (delay * 2) 10000) rest)

/-- A status is retried by `execute_request`: 429 or any 5xx. -/
def retriableStatus (code : Nat) : Prop :=
  code = 429 ∨ (500 ≤ code ∧ code ≤ 599)

/-- Mirrors the custom loop of `RosetClient::delete_node`
(src/fuse/src/client/mod.rs lines 331-373). Note the order: the
attempt-exhaustion check precedes the retryable/fatal classification. -/
def deleteNodeLoop (max_retries : Nat) : Nat → Nat → List HttpOutcome → ExecResult Unit
  | attempt, _delay, [] => .pending attempt []
  | attempt, delay, o :: rest =>
    let a := attempt + 1
    match o with
    | .success => .finished (.ok ()) a []
    | .status code body =>
      if max_retries ≤ a then .finished (.error (fromStatus code body)) a []
      else if (500 ≤ code ∧ code ≤ 599) ∨ code = 429 then
        addSleep delay (deleteNodeLoop max_retries a (min (delay * 2) 10000) rest)
      else .finished (.error (fromStatus code body)) a []
    | .netError =>
      if max_retries ≤ a then .finished (.error .NetworkError) a []
      else addSleep delay (deleteNodeLoop max_retries a (min (delay * 2) 10000) rest)

/-- `RosetClient::delete_node` run from the loop's initial state. -/
def deleteNode (max_retries initial_backoff_ms : Nat) (outcomes : List HttpOutcome) :
    ExecResult Unit :=
  deleteNodeLoop max_retries 0 initial_backoff_ms outcomes

/-- Outcome of one `send()` of a signed-URL range GET. -/
inductive DlOutcome where
  | success (bytes : List Nat)
  | status (code : Nat)
  | netError
deriving Repr, DecidableEq

/-- Mirrors the loop of `RosetClient::download_range`
(src/fuse/src/client/mod.rs lines 244-295): 2xx succeeds, 404 and 403 are
fatal-to-URL `ServerError`s, other statuses and network errors retry with
the shared backoff. -/
def downloadRangeLoop (max_retries : Nat) : Nat → Nat → List DlOutcome → ExecResult (List Nat)
  | attempt, _delay, [] => .pending attempt []
  | attempt, delay, o :: rest =>
    let a := attempt + 1
    match o with
    | .success bytes => .finished (.ok bytes) a []
    | .status code =>
      if code = 404 ∨ code = 403 then
        .finished (.error (.ServerError ("Download error: " ++ statusDisplay code))) a []
      else if max_retries ≤ a then
        .finished (.error (.ServerError
          ("Download error after " ++ toString max_retries ++ " retries: "
            ++ statusDisplay code))) a []
      else addSleep delay (downloadRangeLoop max_retries a (min (delay * 2) 10000) rest)
    | .netError =>
      if max_retries ≤ a then .finished (.error .NetworkError) a []
      else addSleep delay (downloadRangeLoop max_retries a (min (delay * 2) 10000) rest)

/- ### Metadata cache (src/fuse/src/cache.rs) -/

/-- Mirrors `NodeType` from src/fuse/src/client/models.rs. -/
inductive NodeType where
  | file
  | folder
deriving Repr, DecidableEq

/-- Mirrors `Node` from src/fuse/src/client/models.rs. The free-form
`metadata` JSON value is kept opaque as its serialized text. -/
structure Node where
  id : String
  tenant_id : String
  mount_id : String
  parent_id : Option String
  name : String
  node_type : NodeType
  size : Option Nat
  content_type : Option String
  created_at : String
  updated_at : String
  metadata : Option String
deriving Repr, DecidableEq

/-- Model of the `lru` crate's `LruCache`: a capacity-bounded list of
entries, most recently used first. -/
structure Lru (κ α : Type) where
  cap : Nat
  entries : List (κ × α)
deriving Repr, DecidableEq

/-- `LruCache::put`: insert or update the key as most recent; beyond
capacity the least recent entry is evicted. -/
def Lru.put {κ α : Type} [DecidableEq κ] (c : Lru κ α) (k : κ) (v : α) : Lru κ α :=
  { c with entries := ((k, v) :: c.entries.filter (fun e => !decide (e.1 = k))).take c.cap }

/-- `LruCache::get`: on a hit, also promotes the entry to most recent. -/
def Lru.get {κ α : Type} [DecidableEq κ] (c : Lru κ α) (k : κ) : Option α × Lru κ α :=
  match c.entries.find? (fun e => decide (e.1 = k)) with
  | some (_, v) =>
    (some v, { c with entries := (k, v) :: c.entries.filter (fun e => !decide (e.1 = k)) })
  | none => (none, c)

/-- `LruCache::pop`: remove the key, returning its value when present. -/
def Lru.pop {κ α : Type} [DecidableEq κ] (c : Lru κ α) (k : κ) : Option α × Lru κ α :=
  match c.entries.find? (fun e => decide (e.1 = k)) with
  | some (_, v) =>
    (some v, { c with entries := c.entries.filter (fun e => !decide (e.1 = k)) })
  | none => (none, c)

/-- Mirrors `CachePolicy` from src/fuse/src/cache.rs. -/
inductive CachePolicy where
  | Mutable (ttl : Nat)
  | Immutable
deriving Repr, DecidableEq

/-- Mirrors `CachedNode`: node plus optional expiry instant. -/
structure CachedNode where
  node : Node
  expires_at : Option Nat
deriving Repr, DecidableEq

/-- Mirrors `CachedChildren`. -/
structure CachedChildren where
  children : List Node
  expires_at : Option Nat
deriving Repr, DecidableEq

/-- Mirrors `Cache`: the four LRU sub-caches plus the two TTLs. Time is an
abstract instant passed explicitly to each operation. -/
structure Cache where
  nodes : Lru String CachedNode
  children : Lru String CachedChildren
  parents : Lru String String
  negative : Lru (String × String) Nat
  ttl : Nat
  negative_ttl : Nat
deriving Repr, DecidableEq

/-- Mirrors `Cache::new`. -/
def Cache.new (ttl_secs : Nat) : Cache :=
  { nodes := { cap := 10000, entries := [] }
    children := { cap := 1000, entries := [] }
    parents := { cap := 10000, entries := [] }
    negative := { cap := 5000, entries := [] }
    ttl := ttl_secs
    negative_ttl := 60 }

/-- Mirrors `Cache::put_node_with_policy`. -/
def Cache.putNodeWithPolicy (c : Cache) (now : Nat) (node : Node) (policy : CachePolicy) :
    Cache :=
  let expires_at : Option Nat :=
    match policy with
    | .Mutable ttl => some (now + ttl)
    | .Immutable => none
  let c :=
    match node.parent_id with
    | some pid => { c with parents := c.parents.put node.id pid }
    | none => c
  { c with nodes := c.nodes.put node.id ⟨node, expires_at⟩ }

/-- Mirrors `Cache::put_node`. -/
def Cache.putNode (c : Cache) (now : Nat) (node : Node) : Cache :=
  c.putNodeWithPolicy now node (.Mutable c.ttl)

/-- Mirrors `Cache::put_children_with_policy`: each child is also written
into the parents index and the nodes cache, then the listing is stored. -/
def Cache.putChildrenWithPolicy (c : Cache) (now : Nat) (parent_id : String)
    (children : List Node) (policy : CachePolicy) : Cache :=
  let expires_at : Option Nat :=
    match policy with
    | .Mutable ttl => some (now + ttl)
    | .Immutable => none
  let c := children.foldl
    (fun acc child =>
      let acc := { acc with parents := acc.parents.put child.id parent_id }
      acc.putNodeWithPolicy now child policy)
    c
  { c with children := c.children.put parent_id ⟨children, expires_at⟩ }

/-- Mirrors `Cache::put_children`. -/
def Cache.putChildren (c : Cache) (now : Nat) (parent_id : String)
    (children : List Node) : Cache :=
  c.putChildrenWithPolicy now parent_id children (.Mutable c.ttl)

/-- Mirrors `Cache::put_negative`. -/
def Cache.putNegative (c : Cache) (now : Nat) (parent_id name : String) : Cache :=
  { c with negative := c.negative.put (parent_id, name) (now + c.negative_ttl) }

/-- Mirrors `Cache::is_negative` (expired entries are popped lazily). -/
def Cache.isNegative (c : Cache) (now : Nat) (parent_id name : String) :
    Bool × Cache :=
  let key := (parent_id, name)
  match c.negative.get key with
  | (some expires_at, neg') =>
    if now < expires_at then (true, { c with negative := neg' })
    else (false, { c with negative := (neg'.pop key).2 })
  | (none, _) => (false, c)

/-- Mirrors `Cache::invalidate_negative`. -/
def Cache.invalidateNegative (c : Cache) (parent_id name : String) : Cache :=
  { c with negative := (c.negative.pop (parent_id, name)).2 }

/- ### Inode map (src/fuse/src/inode.rs) -/

/-- Mirrors `ROOT_INO`. -/
def ROOT_INO : Nat := 1

/-- Mirrors `InodeMap`: the atomic counter and the three hash maps, in a
sequential (single-request) model. -/
structure InodeMap where
  next_ino : Nat
  node_to_ino : List (String × Nat)
  ino_to_node : List (Nat × String)
  refcounts : List (Nat × Nat)
deriving Repr, DecidableEq

/-- Mirrors `InodeMap::new`. -/
def InodeMap.new : InodeMap :=
  { next_ino := 2, node_to_ino := [], ino_to_node := [], refcounts := [] }

/-- Mirrors `InodeMap::set_root`. -/
def InodeMap.setRoot (m : InodeMap) (node_id : String) : InodeMap :=
  { m with
    node_to_ino := mapInsert m.node_to_ino node_id ROOT_INO
    ino_to_node := mapInsert m.ino_to_node ROOT_INO node_id
    refcounts := mapInsert m.refcounts ROOT_INO 1 }

/-- The refcount bump of `get_or_create` (increment, or recover to 1 when
the entry is unexpectedly missing). -/
def InodeMap.bumpRef (m : InodeMap) (ino : Nat) : InodeMap :=
  match mapLookup m.refcounts ino with
  | some r => { m with refcounts := mapInsert m.refcounts ino (r + 1) }
  | none => { m with refcounts := mapInsert m.refcounts ino 1 }

/-- Mirrors `InodeMap::get_or_create`; in this sequential model the
write-lock double check re-reads the same map. -/
def InodeMap.getOrCreate (m : InodeMap) (node_id : String) : Nat × InodeMap :=
  match mapLookup m.node_to_ino node_id with
  | some ino => (ino, m.bumpRef ino)
  | none =>
    let ino := m.next_ino
    let m' := { m with next_ino := m.next_ino + 1 }
    match mapLookup m'.node_to_ino node_id with
    | some existing => (existing, m'.bumpRef existing)
    | none =>
      (ino,
        { m' with
          node_to_ino := mapInsert m'.node_to_ino node_id ino
          ino_to_node := mapInsert m'.ino_to_node ino node_id
          refcounts := mapInsert m'.refcounts ino 1 })

/-- Mirrors `InodeMap::get_node_id`. -/
def InodeMap.getNodeId (m : InodeMap) (ino : Nat) : Option String :=
  mapLookup m.ino_to_node ino

/-- Mirrors `InodeMap::forget`; sequentially, the resurrection double check
after re-locking sees the state this call just produced. -/
def InodeMap.forget (m : InodeMap) (ino nlookup : Nat) : InodeMap :=
  if ino = ROOT_INO then m
  else
    let count := (mapLookup m.refcounts ino).getD 0
    if nlookup < count then
      { m with refcounts := mapInsert m.refcounts ino (count - nlookup) }
    else
      let m := { m with refcounts := mapErase m.refcounts ino }
      if (mapLookup m.refcounts ino).isSome then m
      else
        match mapLookup m.ino_to_node ino with
        | some node_id =>
          { m with
            ino_to_node := mapErase m.ino_to_node ino
            node_to_ino := mapErase m.node_to_ino node_id }
        | none => m

/- ### Filesystem translator (src/fuse/src/fs.rs) -/

/-- The errno constants used by the translator (Linux values). -/
def ENOENT : Nat := 2
/-- errno EIO. -/
def EIO : Nat := 5
/-- errno EBADF. -/
def EBADF : Nat := 9
/-- errno EAGAIN. -/
def EAGAIN : Nat := 11
/-- errno EACCES. -/
def EACCES : Nat := 13
/-- errno EBUSY. -/
def EBUSY : Nat := 16
/-- errno EROFS. -/
def EROFS : Nat := 30

/-- Mirrors `RosetFs::api_error_to_errno`. -/
def apiErrorToErrno (e : ApiError) : Nat :=
  match e with
  | .NotFound => ENOENT
  | .Unauthorized | .Forbidden => EACCES
  | .LeaseConflict => EBUSY
  | .RateLimited => EAGAIN
  | _ => EIO

/-- Rust `str::contains` (substring test). -/
def containsSubstr (s pat : String) : Bool :=
  decide (pat.toList <:+: s.toList)

/-- The guard of the reactive-retry arm in `RosetFs::read`:
`Err(ApiError::ServerError(msg)) if msg.contains("403")`. -/
def is403Shaped (e : ApiError) : Bool :=
  match e with
  | .ServerError msg => containsSubstr msg "403"
  | _ => false

/-- Mirrors `OpenFile` from src/fuse/src/fs.rs; the temp file is modelled by
its length. -/
structure OpenFile where
  node_id : String
  download_url : Option String
  expires_at : Option Nat
  size : Nat
  write_mode : Bool
  upload_token : Option String
  temp_file : Option Nat
  dirty : Bool
deriving Repr, DecidableEq

/-- Response of `get_download_url` (mirrors `DownloadResponse`). -/
structure DownloadUrlResp where
  url : String
  size : Nat
  expires_in : Nat
deriving Repr, DecidableEq

/-- API calls issued by one `read` operation, in order. -/
inductive ApiCall where
  | getDownloadUrl (node_id : String)
  | downloadRangeCall (url : String) (offset : Nat) (size : Nat)
deriving Repr, DecidableEq

/-- Outcomes of the (at most four) API calls one `read` can make. -/
structure ReadOracle where
  refreshProactive : Except ApiError DownloadUrlResp
  download1 : Except ApiError (List Nat)
  refreshReactive : Except ApiError DownloadUrlResp
  download2 : Except ApiError (List Nat)
deriving Repr

/-- The kernel-visible reply of `read`. -/
inductive ReadReply where
  | data (bytes : List Nat)
  | errno (e : Nat)
deriving Repr, DecidableEq

/-- Mirrors `RosetFs::read` (src/fuse/src/fs.rs lines 907-1021) for an open
handle: bounds check, proactive URL refresh within `url_refresh_buffer` of
expiry, one reactive refresh-and-retry on a 403-shaped download failure.
Returns the reply, the API calls issued in order, and the updated handle. -/
def readOp (h : OpenFile) (now buf offset size : Nat) (o : ReadOracle) :
    ReadReply × List ApiCall × OpenFile :=
  if h.size ≤ offset then (.data [], [], h)
  else
    let actual_size := min size (h.size - offset)
    let needs_refresh :=
      match h.expires_at with
      | some exp => decide (exp < now + buf)
      | none => false
    let refreshed : OpenFile × Option String × List ApiCall :=
      if needs_refresh then
        match o.refreshProactive with
        | .ok resp =>
          ({ h with download_url := some resp.url,
                    expires_at := some (now + resp.expires_in) },
           some resp.url, [.getDownloadUrl h.node_id])
        | .error _ => (h, h.download_url, [.getDownloadUrl h.node_id])
      else (h, h.download_url, [])
    let h1 := refreshed.1
    let calls1 := refreshed.2.2
    match refreshed.2.1 with
    | none => (.errno EIO, calls1, h1)
    | some url =>
      let c1 := calls1 ++ [.downloadRangeCall url offset actual_size]
      match o.download1 with
      | .ok bytes => (.data bytes, c1, h1)
      | .error e =>
        if is403Shaped e then
          match o.refreshReactive with
          | .error e2 =>
            (.errno (apiErrorToErrno e2), c1 ++ [.getDownloadUrl h.node_id], h1)
          | .ok resp =>
            let c2 := c1 ++ [.getDownloadUrl h.node_id,
                             .downloadRangeCall resp.url offset actual_size]
            match o.download2 with
            | .ok bytes => (.data bytes, c2, h1)
            | .error e2 => (.errno (apiErrorToErrno e2), c2, h1)
        else (.errno (apiErrorToErrno e), c1, h1)

/-- Result of `setattr`: the errno replied (if any), the size in the
attribute reply (if the call replied attributes), and the handle table. -/
structure SetattrResult where
  errno : Option Nat
  replySize : Option Nat
  handles : List (Nat × OpenFile)
deriving Repr, DecidableEq

/-- Mirrors the size-handling of `RosetFs::setattr` (src/fuse/src/fs.rs
lines 319-401) under a cache hit for the node (attribute size `nodeSize`):
a requested size truncates the temp file only for a found, write-mode
handle owning a temp file (`truncateOk` is the outcome of `set_len`); all
other combinations are silently skipped, and the attribute reply carries
the requested size whenever one was supplied. -/
def setattrOp (handles : List (Nat × OpenFile)) (fh : Option Nat)
    (size : Option Nat) (truncateOk : Bool) (nodeSize : Nat) : SetattrResult :=
  let step : Option Nat × List (Nat × OpenFile) :=
    match size, fh with
    | some ns, some f =>
      match mapLookup handles f with
      | some h =>
        if h.write_mode then
          match h.temp_file with
          | some _ =>
            if truncateOk then
              (none, mapInsert handles f
                { h with temp_file := some ns, size := ns, dirty := true })
            else (some EIO, handles)
          | none => (none, handles)
        else (none, handles)
      | none => (none, handles)
    | _, _ => (none, handles)
  match step with
  | (some e, hs) => { errno := some e, replySize := none, handles := hs }
  | (none, hs) =>
    { errno := none
      replySize := some (match size with | some ns => ns | none => nodeSize)
      handles := hs }

/- ### Mount supervisor (src/csi/src/supervisor.rs, src/csi/src/node.rs) -/

/-- Mirrors `SupervisorConfig`; durations are in seconds. -/
structure SupervisorConfig where
  health_check_interval : Nat
  initial_backoff : Nat
  max_backoff : Nat
  crash_loop_threshold : Nat
  crash_loop_window : Nat
deriving Repr, DecidableEq

/-- Mirrors `SupervisorConfig::default`. -/
def SupervisorConfig.default : SupervisorConfig :=
  { health_check_interval := 30
    initial_backoff := 1
    max_backoff := 60
    crash_loop_threshold := 5
    crash_loop_window := 300 }

/-- Mirrors `FuseProcessState`. -/
structure FuseProcessState where
  pid : Option Nat
  staging_path : String
  mount_id : String
  key_file : String
  volume_context : List (String × String)
  restart_count : Nat
  restart_window_start : Option Nat
  current_backoff : Nat
  in_crash_loop : Bool
  last_health_check : Option Nat
deriving Repr, DecidableEq

/-- Mirrors `FuseProcessState::new` at instant `now`. -/
def FuseProcessState.new (pid : Nat) (staging_path mount_id key_file : String)
    (volume_context : List (String × String)) (config : SupervisorConfig)
    (now : Nat) : FuseProcessState :=
  { pid := some pid
    staging_path := staging_path
    mount_id := mount_id
    key_file := key_file
    volume_context := volume_context
    restart_count := 0
    restart_window_start := none
    current_backoff := config.initial_backoff
    in_crash_loop := false
    last_health_check := some now }

/-- Mirrors `FuseProcessState::record_restart` at instant `now`; returns the
Boolean the method returns together with the updated state. -/
def FuseProcessState.recordRestart (s : FuseProcessState) (config : SupervisorConfig)
    (now : Nat) : Bool × FuseProcessState :=
  let s :=
    match s.restart_window_start with
    | some window_start =>
      if config.crash_loop_window < now - window_start then
        { s with restart_count := 0, restart_window_start := none,
                 current_backoff := config.initial_backoff }
      else s
    | none => s
  let s :=
    if s.restart_window_start = none then { s with restart_window_start := some now }
    else s
  let s := { s with restart_count := s.restart_count + 1 }
  if config.crash_loop_threshold ≤ s.restart_count then
    (false, { s with in_crash_loop := true })
  else
    (true, { s with current_backoff := min (s.current_backoff * 2) config.max_backoff })

/-- Mirrors `Supervisor`: the per-volume state map plus configuration. -/
structure Supervisor where
  config : SupervisorConfig
  processes : List (String × FuseProcessState)
deriving Repr, DecidableEq

/-- Mirrors `Supervisor::new`. -/
def Supervisor.new (config : SupervisorConfig) : Supervisor :=
  { config := config, processes := [] }

/-- Mirrors `Supervisor::register`. -/
def Supervisor.register (sup : Supervisor) (volume_id : String) (pid : Nat)
    (staging_path mount_id key_file : String)
    (volume_context : List (String × String)) (now : Nat) : Supervisor :=
  { sup with
    processes := mapInsert sup.processes volume_id
      (FuseProcessState.new pid staging_path mount_id key_file volume_context
        sup.config now) }

/-- Mirrors `Supervisor::unregister`. -/
def Supervisor.unregister (sup : Supervisor) (volume_id : String) : Supervisor :=
  { sup with processes := mapErase sup.processes volume_id }

/-- Mirrors `Supervisor::is_in_crash_loop`. -/
def Supervisor.isInCrashLoop (sup : Supervisor) (volume_id : String) : Bool :=
  match mapLookup sup.processes volume_id with
  | some state => state.in_crash_loop
  | none => false

/-- Mirrors `Supervisor::record_restart` (the per-volume dispatch). -/
def Supervisor.recordRestart (sup : Supervisor) (volume_id : String) (now : Nat) :
    Bool × Supervisor :=
  match mapLookup sup.processes volume_id with
  | some state =>
    let r := state.recordRestart sup.config now
    (r.1, { sup with processes := mapInsert sup.processes volume_id r.2 })
  | none => (false, sup)

/-- The supervisor-relevant control flow of `NodeService::node_stage_volume`
(src/csi/src/node.rs lines 262-331): a volume in crash loop is refused
before any mounting or registration happens; otherwise the mount succeeds
(mount mechanics elided) and the volume is registered. -/
def nodeStageVolume (sup : Supervisor) (volume_id : String) (pid : Nat)
    (staging_path mount_id key_file : String)
    (volume_context : List (String × String)) (now : Nat) :
    Except String Supervisor :=
  if sup.isInCrashLoop volume_id then
    .error ("Volume " ++ volume_id ++ " is in crash loop, refusing to stage")
  else
    .ok (sup.register volume_id pid staging_path mount_id key_file volume_context now)

/-- Scenario: a volume registered at `t0` whose mount then crashes five
times, `record_restart` firing at `t1` through `t5`. -/
def superAfterFive (vol : String) (pid : Nat) (sp mid kf : String)
    (ctx : List (String × String)) (t0 t1 t2 t3 t4 t5 : Nat) : Supervisor :=
  let sup0 := (Supervisor.new SupervisorConfig.default).register vol pid sp mid kf ctx t0
  let sup1 := (sup0.recordRestart vol t1).2
  let sup2 := (sup1.recordRestart vol t2).2
  let sup3 := (sup2.recordRestart vol t3).2
  let sup4 := (sup3.recordRestart vol t4).2
  (sup4.recordRestart vol t5).2

/- ### Helper lemmas -/

theorem mapLookup_insert {κ α : Type} [DecidableEq κ] (m : List (κ × α)) (k : κ) (v : α) :
    mapLookup (mapInsert m k v) k = some v := by
  simp [mapLookup, mapInsert]

theorem mapLookup_erase {κ α : Type} [DecidableEq κ] (m : List (κ × α)) (k : κ) :
    mapLookup (mapErase m k) k = none := by
  induction m with
  | nil => rfl
  | cons e rest ih =>
    by_cases h : e.1 = k
    · simpa [mapErase, h] using ih
    · simpa [mapErase, mapLookup, h] using ih

theorem mapLookup_filter_ne {κ α : Type} [DecidableEq κ] (m : List (κ × α))
    (k k' : κ) (h : k ≠ k') :
    mapLookup (m.filter (fun e => !decide (e.1 = k))) k' = mapLookup m k' := by
  induction m with
  | nil => rfl
  | cons e rest ih =>
    by_cases he : e.1 = k
    · have hne : e.1 ≠ k' := by rw [he]; exact h
      simp [List.filter_cons, he, mapLookup, hne, h, Ne.symm h, ih]
    · by_cases he' : e.1 = k'
      · simp [List.filter_cons, he, mapLookup, he', h, Ne.symm h]
      · simp [List.filter_cons, he, mapLookup, he', h, Ne.symm h, ih]

theorem mapLookup_insert_ne {κ α : Type} [DecidableEq κ] (m : List (κ × α))
    (k k' : κ) (v : α) (h : k ≠ k') :
    mapLookup (mapInsert m k v) k' = mapLookup m k' := by
  simp [mapInsert, mapLookup, h, mapLookup_filter_ne m k k' h]

theorem mapLookup_erase_ne {κ α : Type} [DecidableEq κ] (m : List (κ × α))
    (k k' : κ) (h : k ≠ k') :
    mapLookup (mapErase m k) k' = mapLookup m k' :=
  mapLookup_filter_ne m k k' h

/- ### C2 — `delete_node` on a 404 -/

/-- C2 counterexample: a delete answered with HTTP 404 does not succeed; the
loop returns `Err(NotFound)` on the first attempt. -/
theorem c2_delete_404_counterexample :
    deleteNode 5 100 [.status 404 ""] = .finished (.error .NotFound) 1 [] ∧
    (deleteNode 5 100 [.status 404 ""]).isOk = false :=
  ⟨rfl, rfl⟩

/-- C2 (amended): `delete_node` has no 404-as-success special case. Whatever
the loop state, an attempt answered with HTTP 404 terminates the loop at
once with `Err(ApiError::NotFound)` (the generic 4xx mapping), with no
further retry or sleep. -/
theorem c2_delete_404_not_found (max_retries attempt delay : Nat)
    (body : String) (rest : List HttpOutcome) :
    deleteNodeLoop max_retries attempt delay (.status 404 body :: rest) =
      .finished (.error .NotFound) (attempt + 1) [] := by
  simp only [deleteNodeLoop, fromStatus]
  split
  · rfl
  · norm_num

/- ### C8 — `setattr` size handling -/

/-- C8 counterexample: `setattr` with a size on a handle that is not
write-mode does not fail with EBADF; it is silently ignored and the call
replies attributes (with the requested size) and no error. -/
theorem c8_setattr_no_ebadf_counterexample :
    (setattrOp
      [(7, { node_id := "nid", download_url := some "u", expires_at := some 50,
             size := 10, write_mode := false, upload_token := none,
             temp_file := none, dirty := false })]
      (some 7) (some 5) true 10).errno = none ∧
    (none : Option Nat) ≠ some EBADF := by
  exact ⟨rfl, by decide⟩

/-- C8 (amended): with a requested size and a found handle, `setattr`
truncates the temp file and marks the handle dirty only when the handle is
write-mode and owns a temp file; a non-write-mode handle is silently
skipped — no EBADF, the handle table is unchanged, and the attribute reply
still carries the requested size. -/
theorem c8_setattr_truncate (handles : List (Nat × OpenFile)) (f ns nodeSize : Nat)
    (h : OpenFile) (hfind : mapLookup handles f = some h) :
    (h.write_mode = true → ∀ tf, h.temp_file = some tf →
      setattrOp handles (some f) (some ns) true nodeSize =
        { errno := none, replySize := some ns,
          handles := mapInsert handles f
            { h with temp_file := some ns, size := ns, dirty := true } }) ∧
    (h.write_mode = false →
      setattrOp handles (some f) (some ns) true nodeSize =
        { errno := none, replySize := some ns, handles := handles }) := by
  constructor
  · intro hw tf htf
    simp [setattrOp, hfind, hw, htf]
  · intro hw
    simp [setattrOp, hfind, hw]

/-- C8 witness: the amended theorem applied to one write-mode and one
read-mode handle. -/
theorem c8_setattr_truncate_witness :
    (setattrOp
      [(3, { node_id := "w", download_url := none, expires_at := none,
             size := 10, write_mode := true, upload_token := some "tok",
             temp_file := some 10, dirty := false })]
      (some 3) (some 4) true 10 =
      { errno := none, replySize := some 4,
        handles := [(3, { node_id := "w", download_url := none, expires_at := none,
                          size := 4, write_mode := true, upload_token := some "tok",
                          temp_file := some 4, dirty := true })] }) ∧
    (setattrOp
      [(7, { node_id := "r", download_url := some "u", expires_at := some 50,
             size := 10, write_mode := false, upload_token := none,
             temp_file := none, dirty := false })]
      (some 7) (some 5) true 10 =
      { errno := none, replySize := some 5,
        handles := [(7, { node_id := "r", download_url := some "u", expires_at := some 50,
                          size := 10, write_mode := false, upload_token := none,
                          temp_file := none, dirty := false })] }) := by
  constructor
  · have := (c8_setattr_truncate
      [(3, { node_id := "w", download_url := none, expires_at := none,
             size := 10, write_mode := true, upload_token := some "tok",
             temp_file := some 10, dirty := false })] 3 4 10 _ (by rfl)).1 (by rfl) 10 (by rfl)
    simpa [mapInsert] using this
  · exact (c8_setattr_truncate
      [(7, { node_id := "r", download_url := some "u", expires_at := some 50,
             size := 10, write_mode := false, upload_token := none,
             temp_file := none, dirty := false })] 7 5 10 _ (by rfl)).2 (by rfl)

/- ### C9 — hydration of sidecars on construction -/

/-- C9 counterexample: a parseable sidecar whose companion data file is
missing is deleted (`fs::remove_file`), not moved to `failed/`. -/
theorem c9_orphan_counterexample :
    hydrateEntry { path := "a.job.json", readOk := true,
                   parsed := some ⟨"f", "n", "t", 0, []⟩, dataFileExists := false } =
      .removedOrphan "a.job.json" ∧
    HydrateAction.removedOrphan "a.job.json" ≠
      HydrateAction.movedToFailed "a.job.json" := by
  exact ⟨by decide, by decide⟩

/-- C9 (amended): for a `.json`-extension sidecar that can be read, the
hydration scan re-enqueues the job when the companion data file exists,
deletes the sidecar when the data file is missing (orphan), and moves the
sidecar to `failed/` only when it fails to parse. -/
theorem c9_hydration (e : ScanEntry) (hext : extensionIsJson e.path = true)
    (hread : e.readOk = true) :
    (∀ job, e.parsed = some job → e.dataFileExists = true →
      hydrateEntry e = .requeued job) ∧
    (∀ job, e.parsed = some job → e.dataFileExists = false →
      hydrateEntry e = .removedOrphan e.path) ∧
    (e.parsed = none → hydrateEntry e = .movedToFailed e.path) := by
  refine ⟨?_, ?_, ?_⟩
  · intro job hp hd
    simp [hydrateEntry, hext, hread, hp, hd]
  · intro job hp hd
    simp [hydrateEntry, hext, hread, hp, hd]
  · intro hp
    simp [hydrateEntry, hext, hread, hp]

/-- C9 witness: the hydration theorem applied to three concrete sidecars. -/
theorem c9_hydration_witness :
    hydrateEntry { path := "n_1.job.json", readOk := true,
                   parsed := some ⟨"n_1", "n", "t", 5, []⟩, dataFileExists := true } =
      .requeued ⟨"n_1", "n", "t", 5, []⟩ ∧
    hydrateEntry { path := "n_2.job.json", readOk := true,
                   parsed := some ⟨"n_2", "n", "t", 5, []⟩, dataFileExists := false } =
      .removedOrphan "n_2.job.json" ∧
    hydrateEntry { path := "n_3.job.json", readOk := true,
                   parsed := none, dataFileExists := true } =
      .movedToFailed "n_3.job.json" := by
  refine ⟨?_, ?_, ?_⟩
  · exact (c9_hydration _ (by decide) (by decide)).1
      (⟨"n_1", "n", "t", 5, []⟩ : UploadJob) (by decide) (by decide)
  · exact (c9_hydration _ (by decide) (by decide)).2.1
      (⟨"n_2", "n", "t", 5, []⟩ : UploadJob) (by decide) (by decide)
  · exact (c9_hydration _ (by decide) (by decide)).2.2 (by decide)

/- ### C3 — negative-cache freshness -/

theorem find?_filter_self {κ α : Type} [DecidableEq κ] (l : List (κ × α)) (k : κ) :
    (l.filter (fun e => !decide (e.1 = k))).find? (fun e => decide (e.1 = k)) = none := by
  apply List.find?_eq_none.2
  intro x hx
  have hmem := List.of_mem_filter hx
  simpa using hmem

theorem Lru.get_pop_fst {κ α : Type} [DecidableEq κ] (c : Lru κ α) (k : κ) :
    (((c.pop k).2).get k).1 = none := by
  unfold Lru.pop
  cases hf : c.entries.find? (fun e => decide (e.1 = k)) with
  | some e =>
    have h := find?_filter_self c.entries k
    simp only [Lru.get, h]
  | none => simp [Lru.get, hf]

theorem putNodeWithPolicy_negative (c : Cache) (now : Nat) (node : Node)
    (policy : CachePolicy) :
    (c.putNodeWithPolicy now node policy).negative = c.negative := by
  unfold Cache.putNodeWithPolicy
  cases node.parent_id <;> rfl

theorem putChildrenWithPolicy_negative (c : Cache) (now : Nat) (parent_id : String)
    (children : List Node) (policy : CachePolicy) :
    (c.putChildrenWithPolicy now parent_id children policy).negative = c.negative := by
  unfold Cache.putChildrenWithPolicy
  suffices h : ∀ (l : List Node) (acc : Cache),
      (l.foldl (fun acc child =>
        Cache.putNodeWithPolicy
          { acc with parents := acc.parents.put child.id parent_id }
          now child policy) acc).negative = acc.negative by
    simpa using h children c
  intro l
  induction l with
  | nil => intro acc; rfl
  | cons child rest ih =>
    intro acc
    rw [List.foldl_cons, ih]
    rw [putNodeWithPolicy_negative]

/-- C3 counterexample: `put_children` with a listing that contains the name
does not clear a fresh negative entry — `is_negative` still returns true
within the TTL. -/
theorem c3_put_children_counterexample :
    ((((Cache.new 300).putNegative 0 "p" "n").putChildren 0 "p"
        [{ id := "cn", tenant_id := "t", mount_id := "m", parent_id := some "p",
           name := "n", node_type := .file, size := some 3, content_type := none,
           created_at := "", updated_at := "", metadata := none }]).isNegative
      0 "p" "n").1 = true := by
  decide

/-- C3 (amended): after `put_negative(p,n)`, `invalidate_negative(p,n)`
makes `is_negative(p,n)` false (at any instant), but `put_children` leaves
the negative cache untouched, so a fresh negative entry keeps answering
true until its TTL passes. -/
theorem c3_negative_freshness :
    (∀ (c : Cache) (now now' : Nat) (p n : String),
      (((c.putNegative now p n).invalidateNegative p n).isNegative now' p n).1 = false) ∧
    (∀ (c : Cache) (now now' : Nat) (p n parent : String) (children : List Node)
      (policy : CachePolicy),
      ((c.putChildrenWithPolicy now parent children policy).isNegative now' p n).1 =
        ((c.isNegative now' p n).1)) := by
  constructor
  · intro c now now' p n
    have hget : ((((c.putNegative now p n).invalidateNegative p n).negative).get
        (p, n)).1 = none := Lru.get_pop_fst _ _
    cases hE : (((c.putNegative now p n).invalidateNegative p n).negative).get (p, n) with
    | mk o L =>
      rw [hE] at hget
      cases o with
      | some v => simp at hget
      | none => simp [Cache.isNegative, hE]
  · intro c now now' p n parent children policy
    cases hE : c.negative.get (p, n) with
    | mk o L =>
      cases o with
      | some v =>
        by_cases hlt : now' < v <;>
          simp [Cache.isNegative, putChildrenWithPolicy_negative, hE, hlt]
      | none => simp [Cache.isNegative, putChildrenWithPolicy_negative, hE]

/- ### C4 — shared retry policy of `execute_request` -/

theorem addSleep_finished {α : Type} {d : Nat} {r : ExecResult α}
    {res : Except ApiError α} {n : Nat} {s : List Nat}
    (h : addSleep d r = .finished res n s) : ∃ s', r = .finished res n s' := by
  cases r with
  | finished r' a' s' =>
    simp only [addSleep, ExecResult.finished.injEq] at h
    exact ⟨s', by rw [h.1, h.2.1]⟩
  | pending a' s' => simp [addSleep] at h

theorem executeRequest_bound_aux (mr : Nat) :
    ∀ (outs : List HttpOutcome) (a d : Nat) (res : Except ApiError Unit)
      (n : Nat) (s : List Nat),
      a < mr → executeRequest mr a d outs = .finished res n s → n ≤ mr := by
  intro outs
  induction outs with
  | nil =>
    intro a d res n s ha h
    simp [executeRequest] at h
  | cons o rest ih =>
    intro a d res n s ha h
    match o with
    | .success =>
      simp only [executeRequest, ExecResult.finished.injEq] at h
      omega
    | .status code body =>
      simp only [executeRequest] at h
      split at h
      · split at h
        · simp only [ExecResult.finished.injEq] at h
          omega
        · obtain ⟨s', hs'⟩ := addSleep_finished h
          exact ih (a + 1) _ res n s' (by omega) hs'
      · split at h
        · split at h
          · simp only [ExecResult.finished.injEq] at h
            omega
          · obtain ⟨s', hs'⟩ := addSleep_finished h
            exact ih (a + 1) _ res n s' (by omega) hs'
        · simp only [ExecResult.finished.injEq] at h
          omega
    | .netError =>
      simp only [executeRequest] at h
      split at h
      · simp only [ExecResult.finished.injEq] at h
        omega
      · obtain ⟨s', hs'⟩ := addSleep_finished h
        exact ih (a + 1) _ res n s' (by omega) hs'

/-- C4: the shared JSON retry loop retries on 429, any 5xx and network
errors, sleeping the current delay and doubling it up to the 10000 ms cap;
any other 4xx returns the mapped error at once, on that single attempt and
with no sleep; and a run started from attempt 0 finishes within
`max_retries` attempts. -/
theorem c4_retry_policy (mr : Nat) :
    (∀ (a d code : Nat) (body : String) (rest : List HttpOutcome),
      400 ≤ code → code ≤ 499 → code ≠ 429 →
      executeRequest mr a d (.status code body :: rest) =
        .finished (.error (fromStatus code body)) (a + 1) []) ∧
    (∀ (a d : Nat) (o : HttpOutcome) (rest : List HttpOutcome),
      a + 1 < mr →
      (o = HttpOutcome.netError ∨
        ∃ code body, o = HttpOutcome.status code body ∧ retriableStatus code) →
      executeRequest mr a d (o :: rest) =
        addSleep d (executeRequest mr (a + 1) (min (d * 2) 10000) rest)) ∧
    (∀ (d : Nat) (outs : List HttpOutcome) (res : Except ApiError Unit)
      (n : Nat) (s : List Nat),
      1 ≤ mr → executeRequest mr 0 d outs = .finished res n s → n ≤ mr) := by
  refine ⟨?_, ?_, ?_⟩
  · intro a d code body rest h400 h499 hne
    simp only [executeRequest]
    rw [if_neg hne, if_neg (by omega : ¬(500 ≤ code ∧ code ≤ 599))]
  · intro a d o rest hlt ho
    rcases ho with hne | ⟨code, body, rfl, hretry⟩
    · subst hne
      simp only [executeRequest]
      rw [if_neg (by omega : ¬(mr ≤ a + 1))]
    · rcases hretry with h429 | h5xx
      · simp only [executeRequest]
        rw [if_pos h429, if_neg (by omega : ¬(mr ≤ a + 1))]
      · simp only [executeRequest]
        rw [if_neg (by omega : ¬(code = 429)), if_pos h5xx,
          if_neg (by omega : ¬(mr ≤ a + 1))]
  · intro d outs res n s hmr h
    exact executeRequest_bound_aux mr outs 0 d res n s (by omega) h

/-- C4 witness: a 404 fails on its single first attempt with the mapped
error; a 503 sleeps the current delay and retries with it doubled; a run
over [500, network error, success] finishes in 3 of the 5 attempts. -/
theorem c4_retry_policy_witness :
    executeRequest 5 0 100 [.status 404 "x"] =
      .finished (.error .NotFound) 1 [] ∧
    executeRequest 5 0 100 [.status 503 "", .success] =
      addSleep 100 (executeRequest 5 1 200 [.success]) ∧
    (3 : Nat) ≤ 5 := by
  refine ⟨?_, ?_, ?_⟩
  · exact (c4_retry_policy 5).1 0 100 404 "x" [] (by omega) (by omega) (by omega)
  · exact (c4_retry_policy 5).2.1 0 100 (.status 503 "") [.success] (by omega)
      (Or.inr ⟨503, "", rfl, Or.inr (by omega)⟩)
  · exact (c4_retry_policy 5).2.2 100 [.status 500 "", .netError, .success]
      (.ok ()) 3 [100, 200] (by omega) (by rfl)

/- ### C7 — inode stability and refcounted removal -/

/-- C7: while a node id is mapped, `get_or_create` returns the same inode
and keeps the mapping; `forget` with fewer lookups than the refcount leaves
both maps untouched; `forget` that consumes the whole refcount removes both
directions of the mapping; and `forget` on the root inode is a no-op. -/
theorem c7_inode_stability :
    (∀ (m : InodeMap) (nid : String) (ino : Nat),
      mapLookup m.node_to_ino nid = some ino →
      (m.getOrCreate nid).1 = ino ∧
      mapLookup ((m.getOrCreate nid).2).node_to_ino nid = some ino) ∧
    (∀ (m : InodeMap) (ino nlookup count : Nat),
      ino ≠ ROOT_INO →
      mapLookup m.refcounts ino = some count → nlookup < count →
      (m.forget ino nlookup).node_to_ino = m.node_to_ino ∧
      (m.forget ino nlookup).ino_to_node = m.ino_to_node) ∧
    (∀ (m : InodeMap) (ino nlookup : Nat) (nid : String),
      ino ≠ ROOT_INO →
      mapLookup m.ino_to_node ino = some nid →
      (mapLookup m.refcounts ino).getD 0 ≤ nlookup →
      mapLookup ((m.forget ino nlookup)).ino_to_node ino = none ∧
      mapLookup ((m.forget ino nlookup)).node_to_ino nid = none) ∧
    (∀ (m : InodeMap) (nlookup : Nat), m.forget ROOT_INO nlookup = m) := by
  refine ⟨?_, ?_, ?_, ?_⟩
  · intro m nid ino h
    cases hr : mapLookup m.refcounts ino <;>
      simp [InodeMap.getOrCreate, InodeMap.bumpRef, h, hr]
  · intro m ino nlookup count hroot hcount hlt
    simp [InodeMap.forget, hroot, hcount, hlt]
  · intro m ino nlookup nid hroot hnid hge
    have hnlt : ¬ nlookup < (mapLookup m.refcounts ino).getD 0 := by omega
    simp [InodeMap.forget, hroot, hnlt, mapLookup_erase, hnid]
  · intro m nlookup
    simp [InodeMap.forget]

/-- C7 witness: on a concrete map holding node "a" at inode 2,
`get_or_create` returns 2 again; `forget(2,1)` against refcount 2 keeps the
mapping; `forget(2,1)` against refcount 1 removes both directions; and
`forget` on the root inode is ignored. -/
theorem c7_inode_stability_witness :
    ((InodeMap.mk 3 [("a", 2)] [(2, "a")] [(2, 2)]).getOrCreate "a").1 = 2 ∧
    ((InodeMap.mk 3 [("a", 2)] [(2, "a")] [(2, 2)]).forget 2 1).node_to_ino =
      [("a", 2)] ∧
    mapLookup ((InodeMap.mk 3 [("a", 2)] [(2, "a")] [(2, 1)]).forget 2 1).ino_to_node
      2 = none ∧
    mapLookup ((InodeMap.mk 3 [("a", 2)] [(2, "a")] [(2, 1)]).forget 2 1).node_to_ino
      "a" = none ∧
    (InodeMap.mk 3 [("a", 2)] [(2, "a")] [(2, 1)]).forget 1 7 =
      InodeMap.mk 3 [("a", 2)] [(2, "a")] [(2, 1)] := by
  refine ⟨?_, ?_, ?_, ?_, ?_⟩
  · exact (c7_inode_stability.1
      (InodeMap.mk 3 [("a", 2)] [(2, "a")] [(2, 2)]) "a" 2 (by decide)).1
  · exact (c7_inode_stability.2.1
      (InodeMap.mk 3 [("a", 2)] [(2, "a")] [(2, 2)]) 2 1 2
      (by decide) (by decide) (by decide)).1
  · exact (c7_inode_stability.2.2.1
      (InodeMap.mk 3 [("a", 2)] [(2, "a")] [(2, 1)]) 2 1 "a"
      (by decide) (by decide) (by decide)).1
  · exact (c7_inode_stability.2.2.1
      (InodeMap.mk 3 [("a", 2)] [(2, "a")] [(2, 1)]) 2 1 "a"
      (by decide) (by decide) (by decide)).2
  · exact c7_inode_stability.2.2.2 (InodeMap.mk 3 [("a", 2)] [(2, "a")] [(2, 1)]) 7

/- ### C5 — supervisor crash-loop threshold -/

/-- C5: five `record_restart`s within one 5-minute window (default
configuration) put the volume in crash loop: `is_in_crash_loop` answers
true and a further stage request — the path that performs registration —
fails fast with the crash-loop error. -/
theorem c5_crash_loop_threshold (vol : String) (pid : Nat) (sp mid kf : String)
    (ctx : List (String × String)) (t0 t1 t2 t3 t4 t5 : Nat)
    (h12 : t1 ≤ t2) (h23 : t2 ≤ t3) (h34 : t3 ≤ t4) (h45 : t4 ≤ t5)
    (hwin : t5 - t1 ≤ 300) :
    (superAfterFive vol pid sp mid kf ctx t0 t1 t2 t3 t4 t5).isInCrashLoop vol =
      true ∧
    nodeStageVolume (superAfterFive vol pid sp mid kf ctx t0 t1 t2 t3 t4 t5)
        vol pid sp mid kf ctx t5 =
      .error ("Volume " ++ vol ++ " is in crash loop, refusing to stage") := by
  have c2 : ¬ (300 < t2 - t1) := by omega
  have c3 : ¬ (300 < t3 - t1) := by omega
  have c4 : ¬ (300 < t4 - t1) := by omega
  have c5 : ¬ (300 < t5 - t1) := by omega
  have hloop : (superAfterFive vol pid sp mid kf ctx t0 t1 t2 t3 t4 t5).isInCrashLoop
      vol = true := by
    simp [superAfterFive, Supervisor.new, Supervisor.register, Supervisor.recordRestart,
      Supervisor.isInCrashLoop, mapLookup_insert, FuseProcessState.recordRestart,
      FuseProcessState.new, SupervisorConfig.default, c2, c3, c4, c5]
  exact ⟨hloop, by simp [nodeStageVolume, hloop]⟩

/-- C5 witness: restarts at instants 10, 20, 30, 40, 50 after registration
at 0 trip the crash loop for volume "v". -/
theorem c5_crash_loop_threshold_witness :
    (superAfterFive "v" 42 "/stage" "m" "/key" [] 0 10 20 30 40 50).isInCrashLoop
      "v" = true ∧
    nodeStageVolume (superAfterFive "v" 42 "/stage" "m" "/key" [] 0 10 20 30 40 50)
        "v" 42 "/stage" "m" "/key" [] 50 =
      .error "Volume v is in crash loop, refusing to stage" :=
  c5_crash_loop_threshold "v" 42 "/stage" "m" "/key" [] 0 10 20 30 40 50
    (by omega) (by omega) (by omega) (by omega) (by omega)

/- ### C10 — crash-loop flag is never cleared by `record_restart` -/

/-- C10: `record_restart` never clears `in_crash_loop`; when the rolling
window has expired it resets `restart_count`, `restart_window_start` and
`current_backoff` but carries the crash-loop flag over; `unregister`
removes the volume's state; and the stage path refuses a crash-looped
volume before any re-registration can replace its state. -/
theorem c10_crash_loop_sticky :
    (∀ (cfg : SupervisorConfig) (now : Nat) (s : FuseProcessState),
      s.in_crash_loop = true → ((s.recordRestart cfg now).2).in_crash_loop = true) ∧
    (∀ (cfg : SupervisorConfig) (now w : Nat) (s : FuseProcessState),
      s.restart_window_start = some w → cfg.crash_loop_window < now - w →
      2 ≤ cfg.crash_loop_threshold →
      (s.recordRestart cfg now).2 =
        { s with restart_count := 1, restart_window_start := some now,
                 current_backoff := min (cfg.initial_backoff * 2) cfg.max_backoff }) ∧
    (∀ (sup : Supervisor) (vol : String),
      mapLookup (sup.unregister vol).processes vol = none) ∧
    (∀ (sup : Supervisor) (vol : String) (pid : Nat) (sp mid kf : String)
      (ctx : List (String × String)) (t : Nat),
      sup.isInCrashLoop vol = true →
      nodeStageVolume sup vol pid sp mid kf ctx t =
        .error ("Volume " ++ vol ++ " is in crash loop, refusing to stage")) := by
  refine ⟨?_, ?_, ?_, ?_⟩
  · intro cfg now s h
    unfold FuseProcessState.recordRestart
    cases hw : s.restart_window_start with
    | some w =>
      by_cases hexp : cfg.crash_loop_window < now - w <;>
        by_cases hth : cfg.crash_loop_threshold ≤ 1 <;>
          simp [hw, hexp, hth, h] <;> split <;> simp [h]
    | none =>
      simp [hw, h]
      split <;> simp [h]
  · intro cfg now w s hw hexp hth
    unfold FuseProcessState.recordRestart
    simp [hw, hexp]
    rw [if_neg (by omega : ¬ (cfg.crash_loop_threshold ≤ 1))]
  · intro sup vol
    exact mapLookup_erase sup.processes vol
  · intro sup vol pid sp mid kf ctx t h
    simp [nodeStageVolume, h]

/-- C10 witness: a crash-looped state stays crash-looped across a
window-expired restart (which resets the counters), and unregistering
removes it. -/
theorem c10_crash_loop_sticky_witness :
    ((FuseProcessState.mk (some 9) "/s" "m" "/k" [] 5 (some 100) 8 true
        (some 100)).recordRestart SupervisorConfig.default 500).2.in_crash_loop =
      true ∧
    ((FuseProcessState.mk (some 9) "/s" "m" "/k" [] 5 (some 100) 8 true
        (some 100)).recordRestart SupervisorConfig.default 500).2 =
      FuseProcessState.mk (some 9) "/s" "m" "/k" [] 1 (some 500) 2 true
        (some 100) ∧
    mapLookup ((Supervisor.mk SupervisorConfig.default
        [("v", FuseProcessState.mk (some 9) "/s" "m" "/k" [] 5 (some 100) 8 true
          (some 100))]).unregister "v").processes "v" = none ∧
    nodeStageVolume (Supervisor.mk SupervisorConfig.default
        [("v", FuseProcessState.mk (some 9) "/s" "m" "/k" [] 5 (some 100) 8 true
          (some 100))]) "v" 9 "/s" "m" "/k" [] 600 =
      .error "Volume v is in crash loop, refusing to stage" := by
  refine ⟨?_, ?_, ?_, ?_⟩
  · exact c10_crash_loop_sticky.1 SupervisorConfig.default 500
      (FuseProcessState.mk (some 9) "/s" "m" "/k" [] 5 (some 100) 8 true
        (some 100)) (by rfl)
  · exact c10_crash_loop_sticky.2.1 SupervisorConfig.default 500 100
      (FuseProcessState.mk (some 9) "/s" "m" "/k" [] 5 (some 100) 8 true
        (some 100)) (by rfl) (by decide) (by decide)
  · exact c10_crash_loop_sticky.2.2.1 (Supervisor.mk SupervisorConfig.default
      [("v", FuseProcessState.mk (some 9) "/s" "m" "/k" [] 5 (some 100) 8 true
        (some 100))]) "v"
  · exact c10_crash_loop_sticky.2.2.2 (Supervisor.mk SupervisorConfig.default
      [("v", FuseProcessState.mk (some 9) "/s" "m" "/k" [] 5 (some 100) 8 true
        (some 100))]) "v" 9 "/s" "m" "/k" [] 600 (by rfl)

/- ### C6 — read: one reactive URL refresh on a 403-shaped failure -/

/-- C6 counterexample: when the retried range download fails 403-shaped
again, `read` surfaces EIO (the catch-all mapping of `ServerError`), not
EACCES. -/
theorem c6_second_403_counterexample :
    (readOp { node_id := "nid", download_url := some "u", expires_at := none,
              size := 10, write_mode := false, upload_token := none,
              temp_file := none, dirty := false } 0 300 0 4
      { refreshProactive := .error .NetworkError,
        download1 := .error (.ServerError "Download error: 403 Forbidden"),
        refreshReactive := .ok ⟨"u2", 10, 100⟩,
        download2 := .error (.ServerError "Download error: 403 Forbidden") }).1 =
      .errno EIO ∧ EIO ≠ EACCES := by
  exact ⟨by decide, by decide⟩

/-- C6 (amended): a 403-shaped failure of the first range download triggers
exactly one `get_download_url` followed by exactly one retried range
download; the retry's failure surfaces its mapped errno — EACCES for
`Unauthorized`/`Forbidden` API errors, but EIO for a second 403-shaped
`ServerError` from the signed URL. -/
theorem c6_reactive_refresh (h : OpenFile) (now buf offset size : Nat)
    (o : ReadOracle) (url : String) (derr : ApiError)
    (hoff : offset < h.size) (hexp : h.expires_at = none)
    (hurl : h.download_url = some url)
    (hdl : o.download1 = .error derr) (h403 : is403Shaped derr = true) :
    (∀ resp, o.refreshReactive = .ok resp →
      (readOp h now buf offset size o).2.1 =
        [.downloadRangeCall url offset (min size (h.size - offset)),
         .getDownloadUrl h.node_id,
         .downloadRangeCall resp.url offset (min size (h.size - offset))]) ∧
    (∀ resp e2, o.refreshReactive = .ok resp → o.download2 = .error e2 →
      (readOp h now buf offset size o).1 = .errno (apiErrorToErrno e2)) ∧
    (∀ msg, apiErrorToErrno (.ServerError msg) = EIO) ∧
    apiErrorToErrno .Forbidden = EACCES ∧
    apiErrorToErrno .Unauthorized = EACCES := by
  have hnle : ¬ (h.size ≤ offset) := by omega
  refine ⟨?_, ?_, fun msg => rfl, rfl, rfl⟩
  · intro resp hresp
    cases hdl2 : o.download2 with
    | ok bytes => simp [readOp, hnle, hexp, hurl, hdl, h403, hresp, hdl2]
    | error e2 => simp [readOp, hnle, hexp, hurl, hdl, h403, hresp, hdl2]
  · intro resp e2 hresp hdl2
    simp [readOp, hnle, hexp, hurl, hdl, h403, hresp, hdl2]

/-- C6 witness: a 403-shaped first failure, a successful refresh and a
Forbidden retry produce exactly the three calls and surface EACCES. -/
theorem c6_reactive_refresh_witness :
    (readOp { node_id := "nid", download_url := some "u", expires_at := none,
              size := 10, write_mode := false, upload_token := none,
              temp_file := none, dirty := false } 0 300 0 4
      { refreshProactive := .error .NetworkError,
        download1 := .error (.ServerError "Download error: 403 Forbidden"),
        refreshReactive := .ok ⟨"u2", 10, 100⟩,
        download2 := .error .Forbidden }).2.1 =
      [.downloadRangeCall "u" 0 4, .getDownloadUrl "nid",
       .downloadRangeCall "u2" 0 4] ∧
    (readOp { node_id := "nid", download_url := some "u", expires_at := none,
              size := 10, write_mode := false, upload_token := none,
              temp_file := none, dirty := false } 0 300 0 4
      { refreshProactive := .error .NetworkError,
        download1 := .error (.ServerError "Download error: 403 Forbidden"),
        refreshReactive := .ok ⟨"u2", 10, 100⟩,
        download2 := .error .Forbidden }).1 = .errno EACCES := by
  constructor
  · exact (c6_reactive_refresh _ 0 300 0 4 _ "u"
      (.ServerError "Download error: 403 Forbidden")
      (by decide) (by rfl) (by rfl) (by rfl) (by decide)).1 ⟨"u2", 10, 100⟩ (by rfl)
  · exact (c6_reactive_refresh _ 0 300 0 4 _ "u"
      (.ServerError "Download error: 403 Forbidden")
      (by decide) (by rfl) (by rfl) (by rfl) (by decide)).2.1 ⟨"u2", 10, 100⟩
      .Forbidden (by rfl) (by rfl)

/- ### C1 — multipart completeness and part ordering -/

theorem partsLoop_map_fst (total : Nat) (e : List Nat) :
    ∀ (l : List Nat) (off : Nat),
      (partsLoop total e l off).map (fun t => t.1) =
        l.filter (fun pn => decide (pn ∉ e)) := by
  intro l
  induction l with
  | nil => intro off; rfl
  | cons pn rest ih =>
    intro off
    simp only [partsLoop]
    by_cases hm : pn ∈ e
    · simp [hm, List.filter_cons, ih]
    · simp [hm, List.filter_cons, ih]

theorem perm_append_filter (l u : List Nat) (hl : l.Nodup) (hu : u.Nodup)
    (hsub : ∀ a ∈ l, a ∈ u) :
    List.Perm (l ++ u.filter (fun a => decide (a ∉ l))) u := by
  refine (List.perm_ext_iff_of_nodup ?_ hu).2 ?_
  · refine List.Nodup.append hl (hu.filter _) ?_
    intro a hal haf
    have hmem := (List.mem_filter.1 haf).2
    simp at hmem
    exact hmem hal
  · intro a
    simp only [List.mem_append, List.mem_filter, decide_eq_true_eq]
    constructor
    · rintro (h | ⟨h, _⟩)
      · exact hsub a h
      · exact h
    · intro ha
      by_cases hal : a ∈ l
      · exact Or.inl hal
      · exact Or.inr ⟨ha, hal⟩

/-- C1 counterexample: a recovered job whose persisted `completed_parts`
already covers every part is completed through the early-return branch,
which passes the list in its stored order — here [2, 1], not sorted. -/
theorem c1_resume_unsorted_counterexample :
    completeArg { file_path := "f", node_id := "n", upload_token := "t",
                  total_size := PART_SIZE + 1,
                  completed_parts := [⟨2, "b"⟩, ⟨1, "a"⟩] } [] =
      [⟨2, "b"⟩, ⟨1, "a"⟩] ∧
    ¬ (([⟨2, "b"⟩, ⟨1, "a"⟩] : List Part).map Part.part_number).Sorted (· ≤ ·) := by
  constructor
  · decide
  · decide

/-- C1 (amended): for a job whose persisted part numbers are distinct and
lie in 1..=N (N = ceil(S/20 MiB), one part when S = 0), the upload skips
exactly the already-present part numbers, and the list passed to
`complete_multipart_upload` holds exactly one entry per part number in
1..=N; it is sorted by part number whenever at least one part was still
pending — in the resume path where no part is pending, the persisted list
is passed in its stored order. -/
theorem c1_multipart_completeness (j : UploadJob) (uploaded : List Part)
    (hnodup : (existingParts j).Nodup)
    (hsub : ∀ p ∈ existingParts j, p ∈ List.range' 1 (iterations j.total_size))
    (hperm : List.Perm (uploaded.map Part.part_number)
      ((pendingParts j).map (fun t => t.1))) :
    ((pendingParts j).map (fun t => t.1) =
      (List.range' 1 (iterations j.total_size)).filter
        (fun pn => decide (pn ∉ existingParts j))) ∧
    List.Perm ((completeArg j uploaded).map Part.part_number)
      (List.range' 1 (iterations j.total_size)) ∧
    (pendingParts j ≠ [] →
      ((completeArg j uploaded).map Part.part_number).Sorted (· ≤ ·)) ∧
    processUpload true j uploaded = .ok (completeArg j uploaded) := by
  have hrange : (List.range' 1 (iterations j.total_size)).Nodup :=
    List.nodup_range' 1 (iterations j.total_size)
  have hpend : (pendingParts j).map (fun t => t.1) =
      (List.range' 1 (iterations j.total_size)).filter
        (fun pn => decide (pn ∉ existingParts j)) :=
    partsLoop_map_fst j.total_size (existingParts j) _ 0
  refine ⟨hpend, ?_, ?_, rfl⟩
  · by_cases hc : pendingParts j = [] ∧ j.completed_parts ≠ []
    · have hfilter : (List.range' 1 (iterations j.total_size)).filter
          (fun pn => decide (pn ∉ existingParts j)) = [] := by
        rw [← hpend, hc.1]
        rfl
      have hall : ∀ a ∈ List.range' 1 (iterations j.total_size),
          a ∈ existingParts j := by
        intro a ha
        by_contra hne
        have hmem : a ∈ (List.range' 1 (iterations j.total_size)).filter
            (fun pn => decide (pn ∉ existingParts j)) :=
          List.mem_filter.2 ⟨ha, by simpa using hne⟩
        rw [hfilter] at hmem
        simp at hmem
      have : (completeArg j uploaded).map Part.part_number = existingParts j := by
        rw [completeArg, if_pos hc]
        rfl
      rw [this]
      exact (List.perm_ext_iff_of_nodup hnodup hrange).2
        (fun a => ⟨fun h => hsub a h, fun h => hall a h⟩)
    · have hC : completeArg j uploaded =
          (j.completed_parts ++ uploaded).mergeSort partLe := by
        rw [completeArg, if_neg hc]
      rw [hC]
      have h1 : List.Perm
          (((j.completed_parts ++ uploaded).mergeSort partLe).map Part.part_number)
          ((j.completed_parts ++ uploaded).map Part.part_number) :=
        (List.mergeSort_perm _ _).map _
      rw [List.map_append] at h1
      have hperm' : List.Perm (uploaded.map Part.part_number)
          ((List.range' 1 (iterations j.total_size)).filter
            (fun pn => decide (pn ∉ existingParts j))) := by
        rw [← hpend]
        exact hperm
      have h3 : List.Perm
          (j.completed_parts.map Part.part_number ++ uploaded.map Part.part_number)
          (existingParts j ++ (List.range' 1 (iterations j.total_size)).filter
            (fun pn => decide (pn ∉ existingParts j))) :=
        List.Perm.append_left _ hperm'
      exact (h1.trans h3).trans (perm_append_filter _ _ hnodup hrange hsub)
  · intro hne
    by_cases hc : pendingParts j = [] ∧ j.completed_parts ≠ []
    · exact absurd hc.1 hne
    · have hC : completeArg j uploaded =
          (j.completed_parts ++ uploaded).mergeSort partLe := by
        rw [completeArg, if_neg hc]
      rw [hC]
      have hs : ((j.completed_parts ++ uploaded).mergeSort partLe).Pairwise
          (fun a b => partLe a b = true) :=
        List.sorted_mergeSort
          (fun a b c hab hbc => by
            simp only [partLe, decide_eq_true_eq] at *
            omega)
          (fun a b => by
            simp only [partLe, Bool.or_eq_true, decide_eq_true_eq]
            omega)
          (j.completed_parts ++ uploaded)
      rw [List.Sorted, List.pairwise_map]
      exact hs.imp (fun h => by simpa [partLe] using h)

/-- C1 witness: a 45 MiB job with part 2 already persisted uploads parts 1
and 3 (completing out of order) and the final list covers 1..=3 sorted. -/
theorem c1_multipart_completeness_witness :
    List.Perm ((completeArg ⟨"f", "n", "t", 45 * 1024 * 1024, [⟨2, "x"⟩]⟩
        [⟨3, "c"⟩, ⟨1, "a"⟩]).map Part.part_number)
      (List.range' 1 3) ∧
    ((completeArg ⟨"f", "n", "t", 45 * 1024 * 1024, [⟨2, "x"⟩]⟩
        [⟨3, "c"⟩, ⟨1, "a"⟩]).map Part.part_number).Sorted (· ≤ ·) := by
  constructor
  · exact (c1_multipart_completeness ⟨"f", "n", "t", 45 * 1024 * 1024, [⟨2, "x"⟩]⟩
      [⟨3, "c"⟩, ⟨1, "a"⟩] (by decide) (by decide) (by decide)).2.1
  · exact (c1_multipart_completeness ⟨"f", "n", "t", 45 * 1024 * 1024, [⟨2, "x"⟩]⟩
      [⟨3, "c"⟩, ⟨1, "a"⟩] (by decide) (by decide) (by decide)).2.2.1 (by decide)

end Roset
